import Mathlib

/-!
# gowa: the WhatsApp gateway session coordinator

A shallow embedding of `internal/gateway/gateway.go` and of the `GET /qr`
handler of `main.go`.

* Go strings are Lean strings.  The three patterns the gateway searches for
  (`"+"`, `" "`, `"-"`) are single ASCII bytes, so on valid UTF-8 the byte-wise
  Go functions agree with the character-wise ones below.
* A Go `error` is `Option String` (`none` is `nil`), a `(T, error)` result of
  the client library is `Except String T`.
* The whatsmeow client is an external collaborator.  It is represented by the
  answers it gives to the gateway (`Client`), and every call the gateway makes
  into it, every `close(qrChan)` and every `go` statement is recorded, in
  program order, in a list of `Effect`s.
* Channels are explicit values (`Chan`): buffer, capacity, closed flag.  A
  send blocks while the buffer is full and no receiver is waiting; the relay
  goroutine, its result channel and the receiver of that channel are run turn
  by turn under an arbitrary schedule (`Pairing`).
-/

namespace Gowa

/-! ## Go library functions used by the gateway -/

/-- The Go function `strings.TrimPrefix(s, pre)`: `s` without the leading
`pre`, or `s` itself when it does not start with `pre`. -/
def TrimPrefix (s pre : String) : String :=
  if pre.data.isPrefixOf s.data then ⟨s.data.drop pre.data.length⟩ else s

/-- The left-to-right scan of `strings.ReplaceAll` for a non-empty `old`:
`skip` counts the characters of the current match still to be consumed. -/
def replaceFrom (old new : List Char) : Nat → List Char → List Char
  | _, [] => []
  | skip + 1, _ :: cs => replaceFrom old new skip cs
  | 0, c :: cs =>
    if old.isPrefixOf (c :: cs) then new ++ replaceFrom old new (old.length - 1) cs
    else c :: replaceFrom old new 0 cs

/-- The Go function `strings.ReplaceAll(s, old, new)`: every non-overlapping
occurrence of `old`, found left to right, is replaced by `new`; an empty `old`
matches before every character and at the end. -/
def ReplaceAll (s old new : String) : String :=
  if old.data = [] then ⟨new.data ++ s.data.flatMap (fun c => c :: new.data)⟩
  else ⟨replaceFrom old.data new.data 0 s.data⟩

/-- The whatsmeow type `types.JID`, with the two fields `types.NewJID` fills. -/
structure JID where
  User : String
  Server : String
deriving DecidableEq, Repr

/-- The whatsmeow constant `types.DefaultUserServer`. -/
def DefaultUserServer : String := "s.whatsapp.net"

/-- The whatsmeow function `types.NewJID(user, server)`. -/
def NewJID (user server : String) : JID := ⟨user, server⟩

/-- The whatsmeow type `QRChannelItem`: one event of the pairing stream, with
the two fields the relay goroutine reads. -/
structure QRChannelItem where
  Event : String
  Code : String
deriving DecidableEq, Repr

/-! ## Channels -/

/-- A Go channel `chan α`: buffered values (oldest first), capacity, and
whether `close` has been called. -/
structure Chan (α : Type) where
  buf : List α
  cap : Nat
  closed : Bool
deriving DecidableEq, Repr

/-- The Go expression `make(chan α, cap)`. -/
def Chan.make (α : Type) (cap : Nat) : Chan α := ⟨[], cap, false⟩

/-- The Go statement `select { case ch <- v: default: }` with no receiver
waiting: the value is appended when the buffer has room, nothing happens when
it is full; `none` is the run-time panic of a send on a closed channel. -/
def Chan.trySend {α : Type} (ch : Chan α) (v : α) : Option (Chan α) :=
  if ch.closed then none
  else if ch.buf.length < ch.cap then some { ch with buf := ch.buf ++ [v] }
  else some ch

/-- The Go statement `close(ch)`; `none` is the run-time panic of closing a
closed channel. -/
def Chan.close {α : Type} (ch : Chan α) : Option (Chan α) :=
  if ch.closed then none else some { ch with closed := true }

/-- The Go expression `<-ch`: the oldest buffered value, or the zero value of
the element type when the channel is closed and drained; `none` means the
receive blocks. -/
def Chan.recv {α : Type} [Inhabited α] (ch : Chan α) : Option (α × Chan α) :=
  match ch.buf with
  | v :: rest => some (v, { ch with buf := rest })
  | [] => if ch.closed then some (default, ch) else none

/-! ## The protocol client and the effects of the gateway -/

/-- The answers of the whatsmeow client to the calls the gateway makes:
`Store.ID` (`none` is `nil`), `IsConnected()`, `GetQRChannel(ctx)` (the events
the returned channel will yield until it is closed, or an error), `Connect()`,
`SendMessage(ctx, jid, msg)` (the `ID` of the response, or an error) and
`Logout(ctx)`. -/
structure Client where
  StoreID : Option String
  IsConnected : Bool
  GetQRChannel : Except String (List QRChannelItem)
  Connect : Option String
  SendMessage : JID → String → Except String String
  Logout : Option String

/-- What a gateway method does besides returning: calls into the client
library, `close(qrChan)`, and the `go` statement that starts the relay over a
pairing stream. -/
inductive Effect where
  | IsConnected
  | GetQRChannel
  | Connect
  | NewJID (user server : String)
  | SendMessage (jid : JID) (conversation : String)
  | Logout
  | close
  | go (qrChanInternal : List QRChannelItem)
deriving DecidableEq, Repr

/-! ## The gateway -/

/-- The struct `Gateway`; `config` and `container` are not read by any method
modelled here. -/
structure Gateway (ε : Type) where
  client : Client
  eventHandle : Chan ε

/-- The constructor `New`, after the session directory, the store and the
client have been created: the event buffer is `make(chan interface{}, 100)`. -/
def New (ε : Type) (client : Client) : Gateway ε :=
  { client := client, eventHandle := Chan.make ε 100 }

/-- The loop of the goroutine started by `Connect`, without its channel: the
values it hands to its sends `qrChan <- v`, in order, until the pairing stream
is closed or the loop breaks.  Whether a send completes depends on `qrChan`
and its receiver; that is the subject of `Pairing` below. -/
def relay : List QRChannelItem → List String
  | [] => []
  | evt :: rest => if evt.Event = "code" then evt.Code :: relay rest else [""]

/-- The return value of `Connect` together with its effects. -/
structure ConnectResult where
  err : Option String
  effects : List Effect
deriving DecidableEq, Repr

/-- The method `Gateway.Connect`. -/
def Gateway.Connect {ε : Type} (g : Gateway ε) : ConnectResult :=
  match g.client.StoreID with
  | none =>
    match g.client.GetQRChannel with
    | .error err =>
      if g.client.IsConnected then
        ⟨none, [.GetQRChannel, .IsConnected, .close]⟩
      else
        ⟨some ("failed to get QR channel: " ++ err), [.GetQRChannel, .IsConnected]⟩
    | .ok qrChanInternal =>
      match g.client.Connect with
      | some err => ⟨some ("failed to connect: " ++ err), [.GetQRChannel, .Connect]⟩
      | none => ⟨none, [.GetQRChannel, .Connect, .go qrChanInternal]⟩
  | some _ =>
    match g.client.Connect with
    | some err => ⟨some ("failed to connect: " ++ err), [.Connect]⟩
    | none => ⟨none, [.Connect, .close]⟩

/-- The values a `go` effect hands to the sends on `qrChan`, which are all
published when no send stays blocked; no value for the other effects. -/
def Effect.published : Effect → List String
  | .go qrChanInternal => relay qrChanInternal
  | _ => []

/-- The values handed to the sends on `qrChan` as a consequence of one
`Connect` call. -/
def ConnectResult.published (r : ConnectResult) : List String :=
  r.effects.flatMap Effect.published

/-- The state of `qrChan` when `Connect` returns: each `close` effect is
applied to the channel the caller passed in. -/
def qrChanAtReturn : List Effect → Chan String → Option (Chan String)
  | [], ch => some ch
  | .close :: rest, ch => (ch.close).bind (qrChanAtReturn rest)
  | _ :: rest, ch => qrChanAtReturn rest ch

/-- The method `Gateway.IsConnected`. -/
def Gateway.IsConnected {ε : Type} (g : Gateway ε) : Bool :=
  g.client.IsConnected

/-- The address normalisation of `SendMessage` (the three assignments to
`phone`). -/
def normalizePhone (phone : String) : String :=
  let phone := TrimPrefix phone "+"
  let phone := ReplaceAll phone " " ""
  let phone := ReplaceAll phone "-" ""
  phone

/-- The return values of `SendMessage` together with its effects. -/
structure SendResult where
  id : String
  err : Option String
  effects : List Effect
deriving DecidableEq, Repr

/-- The method `Gateway.SendMessage`. -/
def Gateway.SendMessage {ε : Type} (g : Gateway ε) (phone message : String) : SendResult :=
  if !g.client.IsConnected then
    ⟨"", some "client not connected", [.IsConnected]⟩
  else
    let phone := normalizePhone phone
    let jid := NewJID phone DefaultUserServer
    match g.client.SendMessage jid message with
    | .error err =>
      ⟨"", some ("failed to send message: " ++ err),
        [.IsConnected, .NewJID phone DefaultUserServer, .SendMessage jid message]⟩
    | .ok id =>
      ⟨id, none, [.IsConnected, .NewJID phone DefaultUserServer, .SendMessage jid message]⟩

/-- The method `Gateway.Logout`: its error and its effects. -/
def Gateway.Logout {ε : Type} (g : Gateway ε) : Option String × List Effect :=
  if !g.client.IsConnected then
    (some "client not connected", [.IsConnected])
  else
    match g.client.Logout with
    | some err => (some ("failed to logout: " ++ err), [.IsConnected, .Logout])
    | none => (none, [.IsConnected, .Logout])

/-- The method `Gateway.eventHandler`: a non-blocking send to the event
buffer. -/
def Gateway.eventHandler {ε : Type} (g : Gateway ε) (evt : ε) : Option (Gateway ε) :=
  (g.eventHandle.trySend evt).map (fun ch => { g with eventHandle := ch })

/-- The client delivering a sequence of events to `eventHandler`, one call
after the other, with nobody receiving from the buffer. -/
def deliver {ε : Type} (g : Gateway ε) : List ε → Option (Gateway ε)
  | [] => some g
  | evt :: rest => (g.eventHandler evt).bind (fun g1 => deliver g1 rest)

/-! ## The `GET /qr` handler and the pairing relays of a session -/

/-- The `GET /qr` handler up to the call of `Connect`: the effects on the
gateway of one request.  When `IsConnected()` is true the handler answers 400
and does not call `Connect`. -/
def qrHandler {ε : Type} (g : Gateway ε) : List Effect :=
  if g.IsConnected then [.IsConnected]
  else .IsConnected :: g.Connect.effects

/-- One thing that can happen to a gateway session during pairing: a direct
`Connect` call or a `GET /qr` request, each with the answers the client gives
at that time, or one iteration of the loop of the `i`-th running relay. -/
inductive Action where
  | connect (c : Client)
  | qr (c : Client)
  | relayStep (i : Nat)

/-- The pairing state of a session: the number of `GetQRChannel` requests
made so far and, for every relay goroutine that is still running, the events
its pairing stream has yet to yield. -/
structure Session where
  requests : Nat
  relays : List (List QRChannelItem)
deriving DecidableEq, Repr

/-- The pairing streams of the `go` statements among the effects. -/
def startedRelays : List Effect → List (List QRChannelItem)
  | [] => []
  | .go s :: rest => s :: startedRelays rest
  | _ :: rest => startedRelays rest

/-- The number of `GetQRChannel` calls among the effects. -/
def streamRequests (effects : List Effect) : Nat :=
  effects.count Effect.GetQRChannel

/-- One iteration of `for evt := range qrChanInternal` of a running relay:
`none` when the goroutine ends (stream closed, or the `break` after a non-code
event), otherwise the remaining stream. -/
def relayNext : List QRChannelItem → Option (List QRChannelItem)
  | [] => none
  | evt :: rest => if evt.Event = "code" then some rest else none

/-- The loop iteration of the `i`-th running relay applied to the list of
running relays. -/
def stepRelay : Nat → List (List QRChannelItem) → List (List QRChannelItem)
  | _, [] => []
  | 0, s :: rest => (relayNext s).toList ++ rest
  | i + 1, s :: rest => s :: stepRelay i rest

/-- The effect of one action on the pairing state of the session. -/
def Session.step (s : Session) : Action → Session
  | .connect c =>
    let effects := (Gateway.Connect (New Unit c)).effects
    ⟨s.requests + streamRequests effects, s.relays ++ startedRelays effects⟩
  | .qr c =>
    let effects := qrHandler (New Unit c)
    ⟨s.requests + streamRequests effects, s.relays ++ startedRelays effects⟩
  | .relayStep i => ⟨s.requests, stepRelay i s.relays⟩

/-- The session after a sequence of actions. -/
def Session.run (s : Session) (acts : List Action) : Session :=
  acts.foldl Session.step s

/-- The session of a freshly constructed gateway: no request made, no relay
running. -/
def Session.init : Session := ⟨0, []⟩

/-- Whether the action calls `Connect` on a client without stored identity. -/
def Action.requestsStream : Action → Bool
  | .connect c => c.StoreID.isNone
  | .qr c => !c.IsConnected && c.StoreID.isNone
  | .relayStep _ => false

/-- Whether the client grants the pairing stream and accepts the connection
attempt. -/
def Client.grants (c : Client) : Bool :=
  match c.GetQRChannel, c.Connect with
  | .ok _, none => true
  | _, _ => false

/-- Whether the action calls `Connect` on a client without stored identity
that grants the pairing stream and accepts the connection attempt. -/
def Action.startsRelay (a : Action) : Bool :=
  a.requestsStream && match a with
    | .connect c => c.grants
    | .qr c => c.grants
    | .relayStep _ => false

/-! ## Concrete clients and streams used in the examples -/

/-- A client that is not connected, has no stored identity, grants the given
pairing stream and accepts connection attempts. -/
def freshClient (stream : List QRChannelItem) : Client :=
  { StoreID := none, IsConnected := false, GetQRChannel := .ok stream,
    Connect := none, SendMessage := fun _ _ => .ok "3EB0", Logout := none }

/-- A client that is connected, with the given stored identity, and answers
the calls a connected whatsmeow client refuses with the given errors. -/
def connectedClient (id : Option String) : Client :=
  { StoreID := id, IsConnected := true,
    GetQRChannel := .error "QR channel can only be used when not connected",
    Connect := some "websocket is already connected",
    SendMessage := fun _ _ => .ok "3EB0", Logout := none }

/-- A client with a stored identity that is not connected; `connect` is its
answer to a connection attempt. -/
def pairedClient (connect : Option String) : Client :=
  { StoreID := some "15550100:1@s.whatsapp.net", IsConnected := false,
    GetQRChannel := .error "store already contains a JID",
    Connect := connect, SendMessage := fun _ _ => .error "not connected",
    Logout := some "not logged in" }

/-- The pairing stream of the scenario: two codes, then the success event. -/
def scenarioStream : List QRChannelItem :=
  [⟨"code", "ABC123"⟩, ⟨"code", "DEF456"⟩, ⟨"success", ""⟩]

/-! ## The relay goroutine and the result channel -/

/-- The outcome of the Go statement `ch <- v` when no receiver is waiting: the
send completes (the value is appended to the buffer), it blocks because the
buffer is full, or it panics because the channel is closed. -/
inductive Sent (α : Type) where
  | done (ch : Chan α)
  | blocked
  | panic
deriving DecidableEq, Repr

/-- The Go statement `ch <- v` when no receiver is waiting. -/
def Chan.send {α : Type} (ch : Chan α) (v : α) : Sent α :=
  if ch.closed then .panic
  else if ch.buf.length < ch.cap then .done { ch with buf := ch.buf ++ [v] }
  else .blocked

/-- The relay goroutine started by `Connect` on the never-paired path, its
result channel and the receiver of that channel: the events the pairing stream
`qrChanInternal` has yet to yield before it is closed (`none` once the
goroutine has ended), the channel `qrChan`, the values the receiver has taken
from it so far, and the number of receives the receiver will still make. -/
structure Pairing where
  stream : Option (List QRChannelItem)
  qrChan : Chan String
  received : List String
  receives : Nat
deriving DecidableEq, Repr

/-- Who runs next: the relay goroutine, for one iteration of its loop, or the
receiver, for one `<-qrChan`. -/
inductive Turn where
  | relay
  | receive
deriving DecidableEq, Repr

/-- One iteration of `for evt := range qrChanInternal` with its send: the loop
ends when the stream is closed; a code event sends `evt.Code` and continues,
any other event sends the empty string and breaks; a send that blocks leaves
the goroutine where it is.  `none` is a panic. -/
def Pairing.relayTurn (p : Pairing) : Option Pairing :=
  match p.stream with
  | none => some p
  | some [] => some { p with stream := none }
  | some (evt :: rest) =>
    if evt.Event = "code" then
      match p.qrChan.send evt.Code with
      | .done ch => some { p with stream := some rest, qrChan := ch }
      | .blocked => some p
      | .panic => none
    else
      match p.qrChan.send "" with
      | .done ch => some { p with stream := none, qrChan := ch }
      | .blocked => some p
      | .panic => none

/-- One `<-qrChan` of the receiver, when it still has a receive to make: it
takes the oldest buffered value (or the zero value of a closed channel); on an
empty open channel it waits, and the next send of the relay is handed to it
directly; with nothing to receive it keeps waiting. -/
def Pairing.receiveTurn (p : Pairing) : Option Pairing :=
  match p.receives with
  | 0 => some p
  | n + 1 =>
    match p.qrChan.recv with
    | some (v, ch) =>
      some { p with qrChan := ch, received := p.received ++ [v], receives := n }
    | none =>
      match p.stream with
      | some (evt :: rest) =>
        if evt.Event = "code" then
          some { p with stream := some rest, received := p.received ++ [evt.Code],
                        receives := n }
        else
          some { p with stream := none, received := p.received ++ [""], receives := n }
      | _ => some p

/-- One turn of the relay or of the receiver. -/
def Pairing.step (p : Pairing) : Turn → Option Pairing
  | .relay => p.relayTurn
  | .receive => p.receiveTurn

/-- The turns of a schedule, one after the other. -/
def Pairing.run (p : Pairing) : List Turn → Option Pairing
  | [] => some p
  | t :: rest => (p.step t).bind (fun q => q.run rest)

/-- The values published on the result channel so far, in order: those the
receiver has taken and those waiting in the buffer. -/
def Pairing.published (p : Pairing) : List String :=
  p.received ++ p.qrChan.buf

/-- The state right after the `go` statement of `Connect`: the relay is about
to range over the granted stream, and the receiver of `qrChan` will make
`receives` receives. -/
def Pairing.start (stream : List QRChannelItem) (qrChan : Chan String) (receives : Nat) :
    Pairing :=
  ⟨some stream, qrChan, [], receives⟩

/-- The pairing started by the `GET /qr` handler: `qrChan` is
`make(chan string, 1)` and the handler receives from it once. -/
def qrPairing (stream : List QRChannelItem) : Pairing :=
  Pairing.start stream (Chan.make String 1) 1

/-- The codes of the stream events that precede the first event that is not a
code event, in stream order. -/
def leadingCodes (stream : List QRChannelItem) : List String :=
  (stream.takeWhile (fun e => decide (e.Event = "code"))).map QRChannelItem.Code

/-- The values the relay has yet to hand to its sends: those of `relay` over
the rest of the stream, none once the goroutine has ended. -/
def Pairing.pending (p : Pairing) : List String :=
  match p.stream with
  | none => []
  | some l => relay l

/-- The part of a pairing state that the published values depend on: values
received, values buffered, values still to be sent, receives left, capacity. -/
structure Flow where
  received : List String
  buf : List String
  pending : List String
  receives : Nat
  cap : Nat
deriving DecidableEq, Repr

/-- The flow of a pairing state. -/
def Pairing.flow (p : Pairing) : Flow :=
  ⟨p.received, p.qrChan.buf, p.pending, p.receives, p.qrChan.cap⟩

/-- One turn, on flows. -/
def Flow.step (f : Flow) : Turn → Flow
  | .relay =>
    match f.pending with
    | [] => f
    | v :: rest => if f.buf.length < f.cap then { f with buf := f.buf ++ [v], pending := rest } else f
  | .receive =>
    match f.receives with
    | 0 => f
    | n + 1 =>
      match f.buf with
      | b :: bs => { f with received := f.received ++ [b], buf := bs, receives := n }
      | [] =>
        match f.pending with
        | v :: rest => { f with received := f.received ++ [v], pending := rest, receives := n }
        | [] => f

/-- The turns of a schedule, on flows. -/
def Flow.run (f : Flow) (sched : List Turn) : Flow :=
  sched.foldl Flow.step f

/-- A pairing stream of three codes followed by the success event. -/
def threeCodeStream : List QRChannelItem :=
  [⟨"code", "ABC123"⟩, ⟨"code", "DEF456"⟩, ⟨"code", "GHI789"⟩, ⟨"success", ""⟩]

/-! # Auxiliary lemmas -/

/-! ## Address normalisation -/

theorem replaceFrom_single (c : Char) (l : List Char) :
    replaceFrom [c] [] 0 l = l.filter (fun x => x != c) := by
  induction l with
  | nil => rfl
  | cons x xs ih =>
    by_cases h : x = c
    · subst h
      simp [replaceFrom, List.isPrefixOf, ih]
    · have h2 : ¬ c = x := fun e => h e.symm
      simp [replaceFrom, List.isPrefixOf, ih, h, h2]

theorem TrimPrefix_plus_data (s : String) :
    (TrimPrefix s "+").data = match s.data with
      | '+' :: rest => rest
      | l => l := by
  unfold TrimPrefix
  rcases hs : s.data with _ | ⟨x, xs⟩
  · simp [hs, List.isPrefixOf]
  · by_cases h : x = '+'
    · subst h
      simp [hs, List.isPrefixOf]
    · have h2 : ¬ '+' = x := fun e => h e.symm
      simp [hs, List.isPrefixOf, h, h2]

theorem normalizePhone_data (s : String) :
    (normalizePhone s).data =
      ((TrimPrefix s "+").data.filter (fun x => x != ' ')).filter (fun x => x != '-') := by
  simp [normalizePhone, ReplaceAll, replaceFrom_single]


theorem filter_free (l : List Char) :
    ' ' ∉ ((l.filter (fun x => x != ' ')).filter (fun x => x != '-')) ∧
    '-' ∉ ((l.filter (fun x => x != ' ')).filter (fun x => x != '-')) := by
  constructor <;> simp [List.mem_filter]

theorem filter_fixed (l : List Char) (h1 : ' ' ∉ l) (h2 : '-' ∉ l) :
    ((l.filter (fun x => x != ' ')).filter (fun x => x != '-')) = l := by
  have e1 : l.filter (fun x => x != ' ') = l := by
    apply List.filter_eq_self.2
    intro a ha
    have : a ≠ ' ' := fun e => h1 (e ▸ ha)
    simpa using this
  rw [e1]
  apply List.filter_eq_self.2
  intro a ha
  have : a ≠ '-' := fun e => h2 (e ▸ ha)
  simpa using this

/-- Normalising a normalised address only ever removes one more leading plus
sign. -/
theorem normalizePhone_twice_data (s : String) :
    (normalizePhone (normalizePhone s)).data = (TrimPrefix (normalizePhone s) "+").data := by
  rw [normalizePhone_data (normalizePhone s)]
  apply filter_fixed
  · intro h
    have hm : ' ' ∈ (normalizePhone s).data := by
      rw [TrimPrefix_plus_data] at h
      split at h
      · rename_i rest heq
        rw [heq]; exact List.mem_cons_of_mem _ h
      · exact h
    rw [normalizePhone_data] at hm
    exact (filter_free _).1 hm
  · intro h
    have hm : '-' ∈ (normalizePhone s).data := by
      rw [TrimPrefix_plus_data] at h
      split at h
      · rename_i rest heq
        rw [heq]; exact List.mem_cons_of_mem _ h
      · exact h
    rw [normalizePhone_data] at hm
    exact (filter_free _).2 hm

/-! ## The relay and its result channel -/

theorem step_flow (p : Pairing) (t : Turn) (hc : p.qrChan.closed = false) :
    ∃ q, p.step t = some q ∧ q.qrChan.closed = false ∧ q.flow = p.flow.step t := by
  obtain ⟨stream, ⟨buf, cap, closed⟩, received, receives⟩ := p
  simp only at hc
  subst hc
  cases t with
  | relay =>
    rcases stream with _ | _ | ⟨evt, rest⟩
    · simp [Pairing.step, Pairing.relayTurn, Pairing.flow, Flow.step, Pairing.pending]
    · simp [Pairing.step, Pairing.relayTurn, Pairing.flow, Flow.step, Pairing.pending, relay]
    · by_cases hcode : evt.Event = "code" <;> by_cases hroom : buf.length < cap <;>
        simp [Pairing.step, Pairing.relayTurn, Pairing.flow, Flow.step, Pairing.pending, relay,
          Chan.send, hcode, hroom]
  | receive =>
    cases receives with
    | zero => simp [Pairing.step, Pairing.receiveTurn, Pairing.flow, Flow.step]
    | succ n =>
      rcases buf with _ | ⟨b, bs⟩
      · rcases stream with _ | _ | ⟨evt, rest⟩
        · simp [Pairing.step, Pairing.receiveTurn, Pairing.flow, Flow.step, Pairing.pending,
            Chan.recv]
        · simp [Pairing.step, Pairing.receiveTurn, Pairing.flow, Flow.step, Pairing.pending,
            Chan.recv, relay]
        · by_cases hcode : evt.Event = "code" <;>
            simp [Pairing.step, Pairing.receiveTurn, Pairing.flow, Flow.step, Pairing.pending,
              Chan.recv, relay, hcode]
      · simp [Pairing.step, Pairing.receiveTurn, Pairing.flow, Flow.step, Pairing.pending,
          Chan.recv]

theorem run_flow (sched : List Turn) (p : Pairing) (hc : p.qrChan.closed = false) :
    ∃ q, p.run sched = some q ∧ q.qrChan.closed = false ∧ q.flow = p.flow.run sched := by
  induction sched generalizing p with
  | nil => exact ⟨p, rfl, hc, rfl⟩
  | cons t rest ih =>
    obtain ⟨q, h1, h2, h3⟩ := step_flow p t hc
    obtain ⟨q2, h4, h5, h6⟩ := ih q h2
    refine ⟨q2, ?_, h5, ?_⟩
    · simp [Pairing.run, h1, h4]
    · rw [h6, h3]; rfl

theorem Flow.step_total (f : Flow) (t : Turn) :
    (f.step t).received ++ (f.step t).buf ++ (f.step t).pending =
      f.received ++ f.buf ++ f.pending ∧
    (f.step t).cap = f.cap ∧
    (f.step t).received.length + (f.step t).receives = f.received.length + f.receives ∧
    (f.buf.length ≤ f.cap → (f.step t).buf.length ≤ f.cap) := by
  obtain ⟨received, buf, pending, receives, cap⟩ := f
  cases t with
  | relay =>
    rcases pending with _ | ⟨v, rest⟩
    · simp [Flow.step]
    · by_cases hroom : buf.length < cap
      · simp [Flow.step, hroom]; omega
      · simp [Flow.step, hroom]
  | receive =>
    cases receives with
    | zero => simp [Flow.step]
    | succ n =>
      rcases buf with _ | ⟨b, bs⟩
      · rcases pending with _ | ⟨v, rest⟩
        · simp [Flow.step]
        · simp [Flow.step]; omega
      · simp [Flow.step]; omega

theorem Flow.run_total (sched : List Turn) (f : Flow) :
    (f.run sched).received ++ (f.run sched).buf ++ (f.run sched).pending =
      f.received ++ f.buf ++ f.pending ∧
    (f.run sched).cap = f.cap ∧
    (f.run sched).received.length + (f.run sched).receives = f.received.length + f.receives ∧
    (f.buf.length ≤ f.cap → (f.run sched).buf.length ≤ f.cap) := by
  induction sched generalizing f with
  | nil => simp [Flow.run]
  | cons t rest ih =>
    have h1 := Flow.step_total f t
    have h2 := ih (f.step t)
    simp only [Flow.run, List.foldl_cons] at h2 ⊢
    refine ⟨h2.1.trans h1.1, h2.2.1.trans h1.2.1, h2.2.2.1.trans h1.2.2.1, ?_⟩
    intro hb
    have := h2.2.2.2 (by rw [h1.2.1]; exact h1.2.2.2 hb)
    rw [h1.2.1] at this
    exact this

/-- Whatever the schedule, the run does not panic and the values published are
an initial segment of the values the relay hands to its sends, no longer than
the capacity of the channel plus the number of receives. -/
theorem published_prefix (stream : List QRChannelItem) (cap receives : Nat)
    (sched : List Turn) :
    ∃ q, (Pairing.start stream (Chan.make String cap) receives).run sched = some q ∧
      q.published <+: (relay stream).take (cap + receives) := by
  obtain ⟨q, h1, _, h3⟩ :=
    run_flow sched (Pairing.start stream (Chan.make String cap) receives) rfl
  refine ⟨q, h1, ?_⟩
  have ht := Flow.run_total sched (Pairing.start stream (Chan.make String cap) receives).flow
  rw [← h3] at ht
  obtain ⟨t1, t2, t3, t4⟩ := ht
  simp only [Pairing.flow, Pairing.start, Chan.make, Pairing.pending, List.nil_append,
    List.length_nil, Nat.zero_add, Nat.zero_le, forall_const] at t1 t2 t3 t4
  rw [List.prefix_take_iff]
  constructor
  · exact ⟨q.pending, by simpa [Pairing.published] using t1⟩
  · simp only [Pairing.published, List.length_append]
    omega

theorem Flow.run_receives (n : Nat) (received pending : List String) (w cap : Nat)
    (h : n ≤ w) :
    ∃ w2, Flow.run ⟨received, [], pending, w, cap⟩ (List.replicate n Turn.receive) =
      ⟨received ++ pending.take n, [], pending.drop n, w2, cap⟩ := by
  induction n generalizing received pending w with
  | zero => exact ⟨w, by simp [Flow.run]⟩
  | succ n ih =>
    cases w with
    | zero => omega
    | succ w =>
      rcases pending with _ | ⟨v, rest⟩
      · obtain ⟨w2, h2⟩ := ih received [] (w + 1) (by omega)
        refine ⟨w2, ?_⟩
        simp only [Flow.run, List.replicate_succ, List.foldl_cons, Flow.step] at h2 ⊢
        simpa using h2
      · obtain ⟨w2, h2⟩ := ih (received ++ [v]) rest w (by omega)
        refine ⟨w2, ?_⟩
        simp only [Flow.run, List.replicate_succ, List.foldl_cons, Flow.step] at h2 ⊢
        simpa using h2

theorem Flow.run_relays (n : Nat) (received buf pending : List String) (w cap : Nat) :
    Flow.run ⟨received, buf, pending, w, cap⟩ (List.replicate n Turn.relay) =
      ⟨received, buf ++ pending.take (min n (cap - buf.length)),
        pending.drop (min n (cap - buf.length)), w, cap⟩ := by
  induction n generalizing buf pending with
  | zero => simp [Flow.run]
  | succ n ih =>
    rcases pending with _ | ⟨v, rest⟩
    · have h2 := ih buf []
      simp only [Flow.run, List.replicate_succ, List.foldl_cons, Flow.step] at h2 ⊢
      simpa using h2
    · by_cases hroom : buf.length < cap
      · have h2 := ih (buf ++ [v]) rest
        have e : min (n + 1) (cap - buf.length) = min n (cap - (buf ++ [v]).length) + 1 := by
          simp only [List.length_append, List.length_singleton]; omega
        simp only [Flow.run, List.replicate_succ, List.foldl_cons, Flow.step, hroom,
          if_true] at h2 ⊢
        rw [h2, e]
        simp
      · have h2 := ih buf (v :: rest)
        have e : cap - buf.length = 0 := by omega
        simp only [Flow.run, List.replicate_succ, List.foldl_cons, Flow.step, hroom,
          if_false] at h2 ⊢
        rw [h2, e]
        simp

/-- When the receiver makes its receives and the relay then runs for as many
turns as the channel has capacity, everything the capacity and the receives
allow has been published. -/
theorem published_attained (stream : List QRChannelItem) (cap receives : Nat) :
    ∃ q, (Pairing.start stream (Chan.make String cap) receives).run
        (List.replicate receives Turn.receive ++ List.replicate cap Turn.relay) = some q ∧
      q.published = (relay stream).take (cap + receives) := by
  obtain ⟨q, h1, _, h3⟩ := run_flow
    (List.replicate receives Turn.receive ++ List.replicate cap Turn.relay)
    (Pairing.start stream (Chan.make String cap) receives) rfl
  refine ⟨q, h1, ?_⟩
  obtain ⟨w2, h4⟩ := Flow.run_receives receives [] (relay stream) receives cap (le_refl _)
  have h5 := Flow.run_relays cap ([] ++ (relay stream).take receives) []
    ((relay stream).drop receives) w2 cap
  have h6 : (Pairing.start stream (Chan.make String cap) receives).flow =
      ⟨[], [], relay stream, receives, cap⟩ := rfl
  rw [h6] at h3
  simp only [Flow.run, List.foldl_append] at h3 h4 h5
  rw [h4, h5] at h3
  have hr : q.received = (relay stream).take receives := by
    have := congrArg Flow.received h3
    simpa [Pairing.flow] using this
  have hb : q.qrChan.buf = ((relay stream).drop receives).take cap := by
    have := congrArg Flow.buf h3
    simpa [Pairing.flow] using this
  rw [Pairing.published, hr, hb, Nat.add_comm cap receives, List.take_add]

theorem relay_eq (stream : List QRChannelItem) :
    relay stream =
      leadingCodes stream ++
        (if stream.all (fun e => decide (e.Event = "code")) then [] else [""]) := by
  unfold leadingCodes
  induction stream with
  | nil => rfl
  | cons e rest ih =>
    by_cases h : e.Event = "code"
    · simp [relay, h, List.takeWhile, ih]
    · simp [relay, h, List.takeWhile]

theorem Connect_starts_relay {ε : Type} (g : Gateway ε) (stream : List QRChannelItem)
    (hid : g.client.StoreID = none) (hqr : g.client.GetQRChannel = .ok stream)
    (hc : g.client.Connect = none) :
    g.Connect.err = none ∧ startedRelays g.Connect.effects = [stream] := by
  simp [Gateway.Connect, hid, hqr, hc, startedRelays]

theorem prefix_shape (pub codes : List String) (j : Nat)
    (h : pub <+: codes ++ List.replicate j "") :
    ∃ k n, pub = codes.take k ++ List.replicate n "" ∧ n ≤ j ∧ k ≤ codes.length ∧
      (0 < n → k = codes.length) ∧ k + n = pub.length := by
  have hlen : pub.length ≤ codes.length + j := by
    have := h.length_le
    simpa using this
  rw [List.prefix_iff_eq_take] at h
  by_cases hm : pub.length ≤ codes.length
  · refine ⟨pub.length, 0, ?_, Nat.zero_le _, hm, by omega, rfl⟩
    rw [List.take_append_eq_append_take] at h
    have e : pub.length - codes.length = 0 := by omega
    rw [e] at h
    simpa using h
  · refine ⟨codes.length, pub.length - codes.length, ?_, by omega, le_refl _, fun _ => rfl,
      by omega⟩
    rw [List.take_append_eq_append_take, List.take_replicate] at h
    have e1 : List.take pub.length codes = codes := List.take_of_length_le (by omega)
    have e2 : min (pub.length - codes.length) j = pub.length - codes.length := by omega
    rw [e1, e2] at h
    rw [List.take_length]
    exact h

/-! ## The event buffer -/

theorem deliver_eq {ε : Type} (evts : List ε) (client : Client) (buf : List ε) (cap : Nat) :
    deliver (⟨client, ⟨buf, cap, false⟩⟩ : Gateway ε) evts =
      some ⟨client, ⟨buf ++ evts.take (cap - buf.length), cap, false⟩⟩ := by
  induction evts generalizing buf with
  | nil => simp [deliver]
  | cons e rest ih =>
    by_cases hlt : buf.length < cap
    · have hpos : cap - buf.length = (cap - (buf ++ [e]).length) + 1 := by
        simp only [List.length_append, List.length_singleton]; omega
      simp only [deliver, Gateway.eventHandler, Chan.trySend, hlt, if_true, Option.map_some',
        Option.some_bind, Bool.false_eq_true, if_false]
      rw [ih (buf ++ [e]), hpos, List.take_succ_cons]
      simp
    · have hz : cap - buf.length = 0 := by omega
      simp only [deliver, Gateway.eventHandler, Chan.trySend, hlt, Option.map_some',
        Option.some_bind, Bool.false_eq_true, if_false]
      rw [ih buf, hz]
      simp

theorem eventHandler_full {ε : Type} (g : Gateway ε) (evt : ε)
    (h : g.eventHandle.closed = false) (hfull : g.eventHandle.cap ≤ g.eventHandle.buf.length) :
    g.eventHandler evt = some g := by
  have : ¬ g.eventHandle.buf.length < g.eventHandle.cap := by omega
  simp [Gateway.eventHandler, Chan.trySend, h, this]

/-! ## Sessions -/

theorem stepRelay_length (i : Nat) (rs : List (List QRChannelItem)) :
    (stepRelay i rs).length ≤ rs.length := by
  induction rs generalizing i with
  | nil => cases i <;> simp [stepRelay]
  | cons s rest ih =>
    cases i with
    | zero =>
      simp only [stepRelay, List.length_append, List.length_cons]
      cases relayNext s with
      | none => simp
      | some r => simp; omega
    | succ i =>
      simp only [stepRelay, List.length_cons]
      have := ih i
      omega

theorem Connect_requests {ε : Type} (g : Gateway ε) :
    streamRequests g.Connect.effects = (if g.client.StoreID.isNone then 1 else 0) ∧
    (startedRelays g.Connect.effects).length =
      (if g.client.StoreID.isNone && g.client.grants then 1 else 0) := by
  unfold Gateway.Connect Client.grants streamRequests
  rcases h1 : g.client.StoreID with _ | id <;>
  rcases h2 : g.client.GetQRChannel with e | s <;>
  rcases h3 : g.client.Connect with _ | e2 <;>
  cases h4 : g.client.IsConnected <;>
  simp [startedRelays]

theorem step_requests (s : Session) (a : Action) :
    (s.step a).requests = s.requests + (if a.requestsStream then 1 else 0) ∧
    (s.step a).relays.length ≤ s.relays.length + (if a.startsRelay then 1 else 0) := by
  cases a with
  | connect c =>
    have h := Connect_requests (New Unit c)
    have e : (New Unit c).client = c := rfl
    rw [e] at h
    simp only [Session.step, Action.requestsStream, Action.startsRelay, List.length_append, h.1, h.2]
    simp
  | qr c =>
    have h := Connect_requests (New Unit c)
    have e : (New Unit c).client = c := rfl
    rw [e] at h
    cases hc : c.IsConnected
    · simp only [Session.step, qrHandler, Gateway.IsConnected, e, hc, Action.requestsStream,
        Action.startsRelay, List.length_append, Bool.false_eq_true, if_false, Bool.not_false,
        Bool.true_and]
      have r1 : streamRequests (Effect.IsConnected :: (New Unit c).Connect.effects) =
          streamRequests (New Unit c).Connect.effects := by
        simp [streamRequests]
      have r2 : startedRelays (Effect.IsConnected :: (New Unit c).Connect.effects) =
          startedRelays (New Unit c).Connect.effects := by
        simp [startedRelays]
      rw [r1, r2, h.1, h.2]
      simp
    · simp [Session.step, qrHandler, Gateway.IsConnected, e, hc, Action.requestsStream,
        Action.startsRelay, streamRequests, startedRelays]
  | relayStep i =>
    have := stepRelay_length i s.relays
    simpa [Session.step, Action.requestsStream, Action.startsRelay] using this

theorem run_requests (acts : List Action) (s : Session) :
    (s.run acts).requests = s.requests + acts.countP Action.requestsStream ∧
    (s.run acts).relays.length ≤ s.relays.length + acts.countP Action.startsRelay := by
  induction acts generalizing s with
  | nil => simp [Session.run]
  | cons a rest ih =>
    have h := step_requests s a
    have h2 := ih (s.step a)
    simp only [Session.run, List.foldl_cons] at h2 ⊢
    simp only [List.countP_cons]
    constructor
    · rw [h2.1, h.1]; split <;> simp_all; omega
    · refine le_trans h2.2 ?_
      have := h.2
      split at this <;> simp_all; omega

/-! ## The claims -/

/-- C1: when the client reports `IsConnected() = false`, for every phone and
message `SendMessage` returns the error "client not connected" with an empty
message id and `Logout` returns that error too; neither calls the client's
`SendMessage` or `Logout`, and no address is constructed. -/
theorem not_connected_fails_fast {ε : Type} (g : Gateway ε) (phone message : String)
    (h : g.client.IsConnected = false) :
    (g.SendMessage phone message).id = "" ∧
    (g.SendMessage phone message).err = some "client not connected" ∧
    (g.SendMessage phone message).effects = [Effect.IsConnected] ∧
    (∀ jid text, Effect.SendMessage jid text ∉ (g.SendMessage phone message).effects) ∧
    (∀ user server, Effect.NewJID user server ∉ (g.SendMessage phone message).effects) ∧
    g.Logout.1 = some "client not connected" ∧
    g.Logout.2 = [Effect.IsConnected] ∧
    Effect.Logout ∉ g.Logout.2 := by
  simp [Gateway.SendMessage, Gateway.Logout, h]

/-- Witness for C1: the scenario of the specification, `SendMessage("+1 555-0100", "hi")`
on a client that is not connected. -/
theorem not_connected_fails_fast_witness :
    (freshClient []).IsConnected = false ∧
    (Gateway.SendMessage (New Unit (freshClient [])) "+1 555-0100" "hi").err =
      some "client not connected" ∧
    (Gateway.SendMessage (New Unit (freshClient [])) "+1 555-0100" "hi").effects =
      [Effect.IsConnected] :=
  ⟨rfl,
    (not_connected_fails_fast (New Unit (freshClient [])) "+1 555-0100" "hi" rfl).2.1,
    (not_connected_fails_fast (New Unit (freshClient [])) "+1 555-0100" "hi" rfl).2.2.1⟩

/-- C2, as stated, fails: on a connected client without stored identity
`Connect` does call `GetQRChannel`, and on a connected client with a stored
identity it does start a connection attempt (whose refusal it returns as an
error). -/
theorem connect_when_connected_counterexample :
    (connectedClient none).IsConnected = true ∧
    Effect.GetQRChannel ∈ (Gateway.Connect (New Unit (connectedClient none))).effects ∧
    (connectedClient (some "15550100:1@s.whatsapp.net")).IsConnected = true ∧
    Effect.Connect ∈
      (Gateway.Connect (New Unit (connectedClient (some "15550100:1@s.whatsapp.net")))).effects ∧
    (Gateway.Connect (New Unit (connectedClient (some "15550100:1@s.whatsapp.net")))).err ≠ none := by
  decide

/-- C2, amended: on a connected client without stored identity `Connect` calls
`GetQRChannel` once and, when that request fails, returns success, closes the
result channel, publishes nothing and makes no connection attempt; on a
connected client with a stored identity `Connect` never calls `GetQRChannel`,
calls the client's `Connect` once and, when that call reports no error,
returns success, closes the result channel and publishes nothing. -/
theorem connect_when_connected {ε : Type} (g : Gateway ε) (h : g.client.IsConnected = true) :
    (g.client.StoreID = none →
      g.Connect.effects.count Effect.GetQRChannel = 1 ∧
      ∀ e, g.client.GetQRChannel = .error e →
        g.Connect.err = none ∧
        g.Connect.effects = [Effect.GetQRChannel, Effect.IsConnected, Effect.close] ∧
        g.Connect.published = [] ∧
        Effect.Connect ∉ g.Connect.effects) ∧
    (g.client.StoreID ≠ none →
      Effect.GetQRChannel ∉ g.Connect.effects ∧
      g.Connect.effects.count Effect.Connect = 1 ∧
      (g.client.Connect = none →
        g.Connect.err = none ∧
        g.Connect.effects = [Effect.Connect, Effect.close] ∧
        g.Connect.published = [])) := by
  unfold Gateway.Connect ConnectResult.published
  rcases h1 : g.client.StoreID with _ | id <;>
  rcases h2 : g.client.GetQRChannel with e | s <;>
  rcases h3 : g.client.Connect with _ | e2 <;>
  simp [h, Effect.published]

/-- Witness for C2 (amended): a connected client without stored identity whose
pairing-stream request is refused. -/
theorem connect_when_connected_witness :
    (connectedClient none).IsConnected = true ∧
    (Gateway.Connect (New Unit (connectedClient none))).err = none ∧
    (Gateway.Connect (New Unit (connectedClient none))).effects =
      [Effect.GetQRChannel, Effect.IsConnected, Effect.close] :=
  ⟨rfl,
    (((connect_when_connected (New Unit (connectedClient none)) rfl).1 rfl).2 _ rfl).1,
    (((connect_when_connected (New Unit (connectedClient none)) rfl).1 rfl).2 _ rfl).2.1⟩

/-- C3, as stated, fails: for a pairing stream that yields one code and is
then closed, whatever the result channel, the receiver and the schedule, the
code is the only value ever published and no sentinel follows it; and for the
stream of the scenario (two codes, then the success event) the relay started
through `GET /qr` (capacity one, one receive) publishes the two codes and can
never publish the sentinel. -/
theorem relay_sentinel_counterexample :
    ((qrPairing [⟨"code", "ABC123"⟩]).run [Turn.relay, Turn.relay, Turn.receive]).map
      Pairing.published = some ["ABC123"] ∧
    (∀ cap receives sched, ∃ q,
      (Pairing.start [⟨"code", "ABC123"⟩] (Chan.make String cap) receives).run sched = some q ∧
      "" ∉ q.published) ∧
    ((qrPairing scenarioStream).run
      [Turn.relay, Turn.receive, Turn.relay, Turn.relay, Turn.relay]).map
      Pairing.published = some ["ABC123", "DEF456"] ∧
    (∀ sched, ∃ q, (qrPairing scenarioStream).run sched = some q ∧ "" ∉ q.published) := by
  refine ⟨by decide, ?_, by decide, ?_⟩
  · intro cap receives sched
    obtain ⟨q, h1, h2⟩ := published_prefix [⟨"code", "ABC123"⟩] cap receives sched
    refine ⟨q, h1, fun hm => ?_⟩
    have h3 := List.mem_of_mem_take (h2.subset hm)
    revert h3
    decide
  · intro sched
    obtain ⟨q, h1, h2⟩ := published_prefix scenarioStream 1 1 sched
    refine ⟨q, h1, fun hm => ?_⟩
    have h3 := h2.subset hm
    revert h3
    decide

/-- C3, amended: on a never-paired session whose pairing stream is granted and
whose connection attempt is accepted, `Connect` succeeds and starts one relay
over that stream.  With a result channel of capacity `cap` whose receiver
makes `receives` receives, the relay never panics and, whatever the schedule,
the values published are an initial segment of the codes of the events before
the first non-code event followed by one empty string when the stream has a
non-code event (and by nothing when it is closed without one), cut after
`cap + receives` values because a send blocks until the channel has room; and
there is a schedule after which all of those first `cap + receives` values
have been published. -/
theorem relay_codes_then_sentinel {ε : Type} (g : Gateway ε) (stream : List QRChannelItem)
    (cap receives : Nat)
    (hid : g.client.StoreID = none) (hqr : g.client.GetQRChannel = .ok stream)
    (hc : g.client.Connect = none) :
    g.Connect.err = none ∧
    startedRelays g.Connect.effects = [stream] ∧
    (∀ sched, ∃ q,
      (Pairing.start stream (Chan.make String cap) receives).run sched = some q ∧
      q.published <+:
        (leadingCodes stream ++
          (if stream.all (fun e => decide (e.Event = "code")) then [] else [""])).take
          (cap + receives)) ∧
    (∃ sched q,
      (Pairing.start stream (Chan.make String cap) receives).run sched = some q ∧
      q.published =
        (leadingCodes stream ++
          (if stream.all (fun e => decide (e.Event = "code")) then [] else [""])).take
          (cap + receives)) := by
  obtain ⟨h1, h2⟩ := Connect_starts_relay g stream hid hqr hc
  refine ⟨h1, h2, ?_, ?_⟩
  · intro sched
    obtain ⟨q, h3, h4⟩ := published_prefix stream cap receives sched
    rw [relay_eq] at h4
    exact ⟨q, h3, h4⟩
  · obtain ⟨q, h3, h4⟩ := published_attained stream cap receives
    rw [relay_eq] at h4
    exact ⟨_, q, h3, h4⟩

/-- Witness for C3 (amended): the scenario of the specification, two codes and
then the success event, on a channel of capacity one whose receiver receives
twice: the two codes and the sentinel are published. -/
theorem relay_codes_then_sentinel_witness :
    (freshClient scenarioStream).StoreID = none ∧
    (Gateway.Connect (New Unit (freshClient scenarioStream))).err = none ∧
    ∃ sched q,
      (Pairing.start scenarioStream (Chan.make String 1) 2).run sched = some q ∧
      q.published = ["ABC123", "DEF456", ""] := by
  have h := relay_codes_then_sentinel (New Unit (freshClient scenarioStream)) scenarioStream
    1 2 rfl rfl rfl
  obtain ⟨sched, q, h1, h2⟩ := h.2.2.2
  refine ⟨rfl, h.1, sched, q, h1, h2.trans ?_⟩
  decide

/-- C4, as stated, fails: for a pairing stream of three codes and the success
event, the relay started through `GET /qr` (capacity one, one receive)
publishes the first two codes and, whatever the schedule, never the third,
although the third precedes the first non-code event. -/
theorem relay_order_counterexample :
    leadingCodes threeCodeStream = ["ABC123", "DEF456", "GHI789"] ∧
    ((qrPairing threeCodeStream).run
      [Turn.relay, Turn.receive, Turn.relay, Turn.relay, Turn.relay]).map
      Pairing.published = some ["ABC123", "DEF456"] ∧
    (∀ sched, ∃ q, (qrPairing threeCodeStream).run sched = some q ∧
      "GHI789" ∉ q.published) := by
  refine ⟨by decide, by decide, ?_⟩
  intro sched
  obtain ⟨q, h1, h2⟩ := published_prefix threeCodeStream 1 1 sched
  refine ⟨q, h1, fun hm => ?_⟩
  have h3 := h2.subset hm
  revert h3
  decide

/-- C4, amended: on a never-paired session whose pairing stream is granted and
whose connection attempt is accepted, with a result channel of capacity `cap`
whose receiver makes `receives` receives, whatever the schedule the values
published are the first `k` codes of the events that precede the first
non-code event, in stream order, followed by `n ≤ 1` empty strings; the
sentinel is there only after all of those codes and only when the stream has a
non-code event, and `k + n ≤ cap + receives` because a send blocks until the
channel has room.  When `cap + receives` is at least the number of those
codes, there is a schedule after which all of them have been published. -/
theorem relay_order_preserved {ε : Type} (g : Gateway ε) (stream : List QRChannelItem)
    (cap receives : Nat)
    (hid : g.client.StoreID = none) (hqr : g.client.GetQRChannel = .ok stream)
    (hc : g.client.Connect = none) :
    startedRelays g.Connect.effects = [stream] ∧
    (∀ sched, ∃ q k n,
      (Pairing.start stream (Chan.make String cap) receives).run sched = some q ∧
      q.published = (leadingCodes stream).take k ++ List.replicate n "" ∧
      n ≤ 1 ∧ k ≤ (leadingCodes stream).length ∧
      (n = 1 → k = (leadingCodes stream).length ∧ ∃ e ∈ stream, e.Event ≠ "code") ∧
      k + n ≤ cap + receives) ∧
    ((leadingCodes stream).length ≤ cap + receives →
      ∃ sched q,
        (Pairing.start stream (Chan.make String cap) receives).run sched = some q ∧
        leadingCodes stream <+: q.published) := by
  have hrelay : ∃ j, j ≤ 1 ∧ relay stream = leadingCodes stream ++ List.replicate j "" ∧
      (j = 1 → ∃ e ∈ stream, e.Event ≠ "code") := by
    by_cases hall : stream.all (fun e => decide (e.Event = "code")) = true
    · exact ⟨0, by omega, by rw [relay_eq]; simp [hall], fun h => by omega⟩
    · refine ⟨1, le_refl 1, by rw [relay_eq]; simp [hall], fun _ => ?_⟩
      rw [List.all_eq_true] at hall
      push_neg at hall
      obtain ⟨e, he, hne⟩ := hall
      exact ⟨e, he, by simpa using hne⟩
  obtain ⟨j, hj, hr, hex⟩ := hrelay
  refine ⟨(Connect_starts_relay g stream hid hqr hc).2, ?_, ?_⟩
  · intro sched
    obtain ⟨q, h3, h4⟩ := published_prefix stream cap receives sched
    rw [List.prefix_take_iff, hr] at h4
    obtain ⟨k, n, e1, e2, e3, e4, e5⟩ := prefix_shape q.published (leadingCodes stream) j h4.1
    refine ⟨q, k, n, h3, e1, by omega, e3, fun hn => ⟨e4 (by omega), hex (by omega)⟩, ?_⟩
    rw [e5]
    exact h4.2
  · intro hlen
    obtain ⟨q, h3, h4⟩ := published_attained stream cap receives
    refine ⟨_, q, h3, ?_⟩
    rw [h4, List.prefix_take_iff, hr]
    exact ⟨List.prefix_append _ _, hlen⟩

/-- Witness for C4 (amended): three codes and the success event on a channel
of capacity one whose receiver receives twice; all three codes are
published. -/
theorem relay_order_preserved_witness :
    (freshClient threeCodeStream).Connect = none ∧
    (leadingCodes threeCodeStream).length ≤ 1 + 2 ∧
    ∃ sched q,
      (Pairing.start threeCodeStream (Chan.make String 1) 2).run sched = some q ∧
      leadingCodes threeCodeStream <+: q.published :=
  ⟨rfl, by decide,
    (relay_order_preserved (New Unit (freshClient threeCodeStream)) threeCodeStream 1 2
      rfl rfl rfl).2.2 (by decide)⟩

/-- C5, evaluated on streams that never yield the connected signal: a timeout
event, an error event, and a code event whose code is empty each make the
relay publish the empty string; through `GET /qr` (capacity one, one receive)
the handler receives the empty string for the timeout event. -/
theorem relay_sentinel_without_success :
    (Gateway.Connect (New Unit (freshClient [⟨"timeout", ""⟩]))).published = [""] ∧
    (Gateway.Connect (New Unit
      (freshClient [⟨"code", "ABC123"⟩, ⟨"err-client-outdated", ""⟩]))).published =
        ["ABC123", ""] ∧
    (Gateway.Connect (New Unit (freshClient [⟨"code", ""⟩]))).published = [""] ∧
    ((qrPairing [⟨"timeout", ""⟩]).run [Turn.relay, Turn.receive]).map Pairing.received =
      some [""] ∧
    ((qrPairing [⟨"timeout", ""⟩]).run [Turn.receive, Turn.relay]).map Pairing.received =
      some [""] := by
  decide

/-- C6, as stated, fails: the normal form of `++15550100` still starts with a
plus sign, which a second normalisation removes; the same happens when a space
or a hyphen stands before the plus sign. -/
theorem normalizePhone_idempotent_counterexample :
    normalizePhone "++15550100" = "+15550100" ∧
    normalizePhone (normalizePhone "++15550100") = "15550100" ∧
    normalizePhone (normalizePhone "++15550100") ≠ normalizePhone "++15550100" ∧
    normalizePhone (normalizePhone " +15550100") ≠ normalizePhone " +15550100" := by
  decide

/-- C6, amended: normalising twice gives the same address as normalising once
exactly when the normalised address does not begin with a plus sign. -/
theorem normalizePhone_idempotent_iff (s : String) :
    normalizePhone (normalizePhone s) = normalizePhone s ↔
      (normalizePhone s).data.head? ≠ some '+' := by
  have key := normalizePhone_twice_data s
  rw [TrimPrefix_plus_data] at key
  constructor
  · intro h hh
    rw [h] at key
    rcases ht : (normalizePhone s).data with _ | ⟨x, xs⟩
    · simp [ht] at hh
    · simp [ht] at hh
      subst hh
      rw [ht] at key
      simp at key
  · intro h
    apply String.ext
    rw [key]
    split
    · rename_i rest heq
      simp [heq] at h
    · rfl

/-- C7: with nobody receiving from the event buffer of a new gateway, after
any sequence of events `eventHandler` has returned every time, the buffer
holds the first `min n 100` events in delivery order and never more than 100,
and a further call on the full buffer returns and leaves the gateway
unchanged. -/
theorem event_buffer_bounded {ε : Type} (client : Client) (evts : List ε) (evt : ε) :
    ∃ g : Gateway ε, deliver (New ε client) evts = some g ∧
      g.eventHandle.buf = evts.take 100 ∧
      g.eventHandle.buf.length = min evts.length 100 ∧
      g.eventHandle.buf.length ≤ 100 ∧
      (∀ k, ∃ gk : Gateway ε, deliver (New ε client) (evts.take k) = some gk ∧
        gk.eventHandle.buf.length ≤ 100) ∧
      (100 ≤ evts.length → g.eventHandler evt = some g ∧
        deliver (New ε client) (evts ++ [evt]) = some g) := by
  have key : ∀ l : List ε, deliver (New ε client) l =
      some ⟨client, ⟨l.take 100, 100, false⟩⟩ := by
    intro l
    have := deliver_eq l client ([] : List ε) 100
    simpa [New, Chan.make] using this
  refine ⟨⟨client, ⟨evts.take 100, 100, false⟩⟩, key evts, rfl, ?_, ?_, ?_, ?_⟩
  · simp [List.length_take, Nat.min_comm]
  · simp [List.length_take]
  · intro k
    exact ⟨_, key (evts.take k), by simp [List.length_take]⟩
  · intro hlen
    constructor
    · apply eventHandler_full
      · rfl
      · simp [List.length_take, hlen]
    · rw [key (evts ++ [evt])]
      have : (evts ++ [evt]).take 100 = evts.take 100 := by
        rw [List.take_append_of_le_length hlen]
      rw [this]

/-- Witness for C7: one hundred and two numbered events; the buffer ends with
the first hundred, and the next event is dropped. -/
theorem event_buffer_bounded_witness :
    100 ≤ (List.range 102).length ∧
    ∃ g : Gateway Nat, deliver (New Nat (freshClient [])) (List.range 102) = some g ∧
      g.eventHandle.buf = List.range 100 ∧
      g.eventHandler 102 = some g := by
  obtain ⟨g, h1, h2, _, _, _, h6⟩ := event_buffer_bounded (freshClient []) (List.range 102) 102
  refine ⟨by simp, g, h1, ?_, (h6 (by simp)).1⟩
  rw [h2]
  decide

/-- C8: with a stored identity `Connect` never calls `GetQRChannel`; when the
client's `Connect` succeeds it returns no error, publishes nothing and closes
the result channel, so that the first receive on a fresh channel yields the
empty string without blocking; when the client's `Connect` fails with `e` it
returns "failed to connect: e", publishes nothing and leaves the result
channel untouched. -/
theorem connect_with_identity {ε : Type} (g : Gateway ε) (id : String)
    (h : g.client.StoreID = some id) :
    Effect.GetQRChannel ∉ g.Connect.effects ∧
    (g.client.Connect = none →
      g.Connect.err = none ∧
      g.Connect.effects = [Effect.Connect, Effect.close] ∧
      g.Connect.published = [] ∧
      ∀ cap, ((qrChanAtReturn g.Connect.effects (Chan.make String cap)).bind Chan.recv).map
        Prod.fst = some "") ∧
    (∀ e, g.client.Connect = some e →
      g.Connect.err = some ("failed to connect: " ++ e) ∧
      g.Connect.effects = [Effect.Connect] ∧
      g.Connect.published = [] ∧
      ∀ ch, qrChanAtReturn g.Connect.effects ch = some ch) := by
  unfold Gateway.Connect ConnectResult.published
  rcases h3 : g.client.Connect with _ | e2
  · simp [h, Effect.published, qrChanAtReturn, Chan.close, Chan.make, Chan.recv]
  · simp [h, Effect.published, qrChanAtReturn]

/-- Witness for C8: the scenario of the specification, an existing identity
and a reachable network; the first receive on the handler's channel yields
the empty string. -/
theorem connect_with_identity_witness :
    (pairedClient none).StoreID = some "15550100:1@s.whatsapp.net" ∧
    (Gateway.Connect (New Unit (pairedClient none))).err = none ∧
    ((qrChanAtReturn (Gateway.Connect (New Unit (pairedClient none))).effects
      (Chan.make String 1)).bind Chan.recv).map Prod.fst = some "" :=
  ⟨rfl,
    ((connect_with_identity (New Unit (pairedClient none)) _ rfl).2.1 rfl).1,
    ((connect_with_identity (New Unit (pairedClient none)) _ rfl).2.1 rfl).2.2.2 1⟩

/-- C9: without a stored identity `Connect` returns an error exactly when the
pairing-stream request fails while the client is not connected, or the request
succeeds and the connection attempt fails.  In the first case no connection
attempt is made, in the second no relay is started, and in both nothing is
published or closed.  When the request fails while the client is connected,
`Connect` closes the result channel, publishes nothing and succeeds; when the
request and the connection attempt succeed, it starts the relay over the
granted stream and succeeds. -/
theorem connect_without_identity {ε : Type} (g : Gateway ε) (h : g.client.StoreID = none) :
    (g.Connect.err ≠ none ↔
      ((∃ e, g.client.GetQRChannel = .error e) ∧ g.client.IsConnected = false) ∨
      ((∃ s, g.client.GetQRChannel = .ok s) ∧ g.client.Connect ≠ none)) ∧
    (∀ e, g.client.GetQRChannel = .error e → g.client.IsConnected = false →
      g.Connect = ⟨some ("failed to get QR channel: " ++ e),
        [Effect.GetQRChannel, Effect.IsConnected]⟩ ∧
      Effect.Connect ∉ g.Connect.effects ∧ g.Connect.published = []) ∧
    (∀ s e, g.client.GetQRChannel = .ok s → g.client.Connect = some e →
      g.Connect = ⟨some ("failed to connect: " ++ e), [Effect.GetQRChannel, Effect.Connect]⟩ ∧
      startedRelays g.Connect.effects = [] ∧ g.Connect.published = []) ∧
    (∀ e, g.client.GetQRChannel = .error e → g.client.IsConnected = true →
      g.Connect = ⟨none, [Effect.GetQRChannel, Effect.IsConnected, Effect.close]⟩ ∧
      g.Connect.published = []) ∧
    (∀ s, g.client.GetQRChannel = .ok s → g.client.Connect = none →
      g.Connect = ⟨none, [Effect.GetQRChannel, Effect.Connect, Effect.go s]⟩ ∧
      startedRelays g.Connect.effects = [s]) := by
  unfold Gateway.Connect ConnectResult.published
  rcases h2 : g.client.GetQRChannel with e | s <;>
  rcases h3 : g.client.Connect with _ | e2 <;>
  cases h4 : g.client.IsConnected <;>
  simp [h, Effect.published, startedRelays]

/-- Witness for C9: a never-paired client that grants the pairing stream of
the scenario; `Connect` succeeds and starts the relay. -/
theorem connect_without_identity_witness :
    (freshClient scenarioStream).StoreID = none ∧
    Gateway.Connect (New Unit (freshClient scenarioStream)) =
      ⟨none, [Effect.GetQRChannel, Effect.Connect, Effect.go scenarioStream]⟩ :=
  ⟨rfl,
    ((connect_without_identity (New Unit (freshClient scenarioStream)) rfl).2.2.2.2
      scenarioStream rfl rfl).1⟩

/-- C10, as stated, fails: a `Connect` call followed by a `GET /qr` request,
on a never-paired client that is not connected and grants both pairing
streams, with no relay iteration in between, leaves two pairing-stream
requests made and two relays running. -/
theorem single_pairing_counterexample :
    (Session.init.run
      [Action.connect (freshClient scenarioStream), Action.qr (freshClient scenarioStream)]) =
      ⟨2, [scenarioStream, scenarioStream]⟩ ∧
    ¬ (Session.init.run
      [Action.connect (freshClient scenarioStream),
        Action.qr (freshClient scenarioStream)]).relays.length ≤ 1 := by
  decide

/-- C10, amended: after any sequence of `Connect` calls, `GET /qr`
requests and relay iterations, the number of pairing-stream requests made is
the number of `Connect` calls reached on a client without stored identity
(every direct call, and every `GET /qr` request for which the client was not
connected), and the number of running relays is at most the number of those
calls for which the client granted the stream and accepted the connection
attempt. -/
theorem relays_bounded_by_grants (acts : List Action) :
    (Session.init.run acts).requests = acts.countP Action.requestsStream ∧
    (Session.init.run acts).relays.length ≤ acts.countP Action.startsRelay := by
  have h := run_requests acts Session.init
  simpa [Session.init] using h

end Gowa
